import Mathlib

/-!
Verification of the e-commerce sales forecasting pipeline
(ecommerce_sales_forecasting/src + data/generate_data.py).

The Python code is shallowly embedded:
* Numeric data is exact (ℚ); numpy float special values (inf, -inf, nan) are
  modelled by the type Val with numpy propagation rules, since the claims
  under study concern exact zeros and identities, not rounding.
* External library calls (statsmodels adfuller / ARIMA fit, Prophet fit,
  np.sqrt) are black boxes: they are passed in as function parameters, with
  only their documented interface contracts (e.g. ARIMA forecast(steps)
  returns exactly steps values) reflected in the embedding.
* Python dicts keyed by entity id are association lists in insertion order
  with unique keys; pandas Series/DataFrames are lists of (month, value)
  rows; dates are modelled at month granularity (the pipeline resamples to
  monthly buckets before any other processing).
* Fallible operations (statsmodels fit, sklearn metric length checks,
  Python dict KeyError) live in Except String.
-/

/-- Numpy floating-point value with special values, over exact rationals:
a finite number, +inf, -inf, or nan. -/
inductive Val where
  | num (q : ℚ)
  | inf
  | neginf
  | nan
deriving DecidableEq

/-- Numpy addition with special-value propagation: nan absorbs, inf + -inf = nan. -/
def Val.add : Val → Val → Val
  | .nan, _ => .nan
  | _, .nan => .nan
  | .num a, .num b => .num (a + b)
  | .inf, .neginf => .nan
  | .neginf, .inf => .nan
  | .inf, _ => .inf
  | _, .inf => .inf
  | .neginf, _ => .neginf
  | _, .neginf => .neginf

/-- Numpy subtraction with special-value propagation. -/
def Val.sub : Val → Val → Val
  | .nan, _ => .nan
  | _, .nan => .nan
  | .num a, .num b => .num (a - b)
  | .inf, .inf => .nan
  | .neginf, .neginf => .nan
  | .inf, _ => .inf
  | .neginf, _ => .neginf
  | .num _, .inf => .neginf
  | .num _, .neginf => .inf

/-- Numpy multiplication with special-value propagation: inf * 0 = nan. -/
def Val.mul : Val → Val → Val
  | .nan, _ => .nan
  | _, .nan => .nan
  | .num a, .num b => .num (a * b)
  | .inf, .inf => .inf
  | .inf, .neginf => .neginf
  | .neginf, .inf => .neginf
  | .neginf, .neginf => .inf
  | .inf, .num b => if 0 < b then .inf else if b < 0 then .neginf else .nan
  | .num a, .inf => if 0 < a then .inf else if a < 0 then .neginf else .nan
  | .neginf, .num b => if 0 < b then .neginf else if b < 0 then .inf else .nan
  | .num a, .neginf => if 0 < a then .neginf else if a < 0 then .inf else .nan

/-- Numpy division with special-value propagation: x/0 is ±inf for x ≠ 0 and
nan for x = 0 (numpy emits a RuntimeWarning, not an exception). -/
def Val.div : Val → Val → Val
  | .nan, _ => .nan
  | _, .nan => .nan
  | .num a, .num b =>
      if b = 0 then
        if 0 < a then .inf else if a < 0 then .neginf else .nan
      else .num (a / b)
  | .inf, .inf => .nan
  | .inf, .neginf => .nan
  | .neginf, .inf => .nan
  | .neginf, .neginf => .nan
  | .inf, .num b => if b < 0 then .neginf else .inf
  | .neginf, .num b => if b < 0 then .inf else .neginf
  | .num _, .inf => .num 0
  | .num _, .neginf => .num 0

/-- Numpy absolute value with special-value propagation. -/
def Val.abs : Val → Val
  | .nan => .nan
  | .inf => .inf
  | .neginf => .inf
  | .num a => .num |a|

/-- Numpy sum of an array of values (left fold of Val.add from 0). -/
def vsum (l : List Val) : Val :=
  l.foldl Val.add (.num 0)

/-- Numpy mean: nan on an empty array, otherwise sum divided by length. -/
def vmean (l : List Val) : Val :=
  if l.length = 0 then .nan else Val.div (vsum l) (.num l.length)

/-- Embeds evaluate.py calculate_mape:
np.mean(np.abs((y_true - y_pred) / y_true)) * 100, elementwise over the two
(equal-length) arrays.  Total: numpy division by zero warns, it never raises. -/
def calculate_mape (y_true y_pred : List ℚ) : Val :=
  Val.mul
    (vmean ((y_true.zip y_pred).map fun ap =>
      Val.abs (Val.div (Val.sub (.num ap.1) (.num ap.2)) (.num ap.1))))
    (.num 100)

/-- Percentage-error term of calculate_mape for one (actual, predicted) pair. -/
def mapeTerm (ap : ℚ × ℚ) : Val :=
  Val.abs (Val.div (Val.sub (.num ap.1) (.num ap.2)) (.num ap.1))

theorem calculate_mape_eq_terms (y_true y_pred : List ℚ) :
    calculate_mape y_true y_pred =
      Val.mul (vmean ((y_true.zip y_pred).map mapeTerm)) (.num 100) := rfl

theorem mapeTerm_num (a p : ℚ) (ha : a ≠ 0) : mapeTerm (a, p) = .num |(a - p) / a| := by
  simp [mapeTerm, Val.sub, Val.div, Val.abs, ha]

theorem mapeTerm_zero (p : ℚ) : mapeTerm (0, p) = if p = 0 then .nan else .inf := by
  rcases lt_trichotomy p 0 with hp | hp | hp
  · have h1 : (0:ℚ) < -p := by linarith
    simp [mapeTerm, Val.sub, Val.div, Val.abs, zero_sub, h1, hp.ne]
  · subst hp
    simp [mapeTerm, Val.sub, Val.div, Val.abs]
  · have h1 : ¬ (0:ℚ) < -p := by linarith
    have h2 : -p < 0 := by linarith
    simp [mapeTerm, Val.sub, Val.div, Val.abs, zero_sub, h1, h2, hp.ne']

theorem mapeTerm_nan_iff (a p : ℚ) : mapeTerm (a, p) = .nan ↔ a = 0 ∧ p = 0 := by
  rcases eq_or_ne a 0 with ha | ha
  · subst ha
    rw [mapeTerm_zero p]
    rcases eq_or_ne p 0 with hp | hp <;> simp [hp]
  · simp [mapeTerm_num a p ha, ha]

theorem mapeTerm_inf_iff (a p : ℚ) : mapeTerm (a, p) = .inf ↔ a = 0 ∧ p ≠ 0 := by
  rcases eq_or_ne a 0 with ha | ha
  · subst ha
    rw [mapeTerm_zero p]
    rcases eq_or_ne p 0 with hp | hp <;> simp [hp]
  · simp [mapeTerm_num a p ha, ha]

theorem mapeTerm_ne_neginf (a p : ℚ) : mapeTerm (a, p) ≠ .neginf := by
  rcases eq_or_ne a 0 with ha | ha
  · subst ha
    rw [mapeTerm_zero p]
    rcases eq_or_ne p 0 with hp | hp <;> simp [hp]
  · simp [mapeTerm_num a p ha]

theorem vadd_nan_right (x : Val) : Val.add x .nan = .nan := by
  cases x <;> rfl

theorem vadd_nan_left (x : Val) : Val.add .nan x = .nan := by
  cases x <;> rfl

theorem foldl_vadd_nan_acc (l : List Val) : l.foldl Val.add .nan = .nan := by
  induction l with
  | nil => rfl
  | cons y ys ih => rw [List.foldl_cons, vadd_nan_left y]; exact ih

theorem foldl_vadd_nan (l : List Val) (h : Val.nan ∈ l) (acc : Val) :
    l.foldl Val.add acc = .nan := by
  induction l generalizing acc with
  | nil => simp at h
  | cons x xs ih =>
      rcases List.mem_cons.mp h with hx | hx
      · subst hx
        rw [List.foldl_cons, vadd_nan_right acc]
        exact foldl_vadd_nan_acc xs
      · exact ih hx _

theorem foldl_vadd_no_nan_neginf (l : List Val)
    (h : ∀ x ∈ l, x ≠ .nan ∧ x ≠ .neginf) :
    (∀ q : ℚ, (Val.inf ∈ l → l.foldl Val.add (.num q) = .inf) ∧
      (Val.inf ∉ l → ∃ r : ℚ, l.foldl Val.add (.num q) = .num r)) ∧
    l.foldl Val.add .inf = .inf := by
  induction l with
  | nil => exact ⟨fun q => ⟨by simp, fun _ => ⟨q, rfl⟩⟩, rfl⟩
  | cons x xs ih =>
      have hx := h x (List.mem_cons_self x xs)
      have hxs := ih (fun y hy => h y (List.mem_cons_of_mem x hy))
      constructor
      · intro q
        constructor
        · intro hmem
          rcases List.mem_cons.mp hmem with hx1 | hx1
          · subst hx1
            simpa [Val.add] using hxs.2
          · cases x with
            | num a => simpa [Val.add] using (hxs.1 (q + a)).1 hx1
            | inf => simpa [Val.add] using hxs.2
            | neginf => exact absurd rfl hx.2
            | nan => exact absurd rfl hx.1
        · intro hmem
          have hxnot : x ≠ .inf := fun hh => hmem (hh ▸ List.mem_cons_self x xs)
          have hxsnot : Val.inf ∉ xs := fun hh => hmem (List.mem_cons_of_mem x hh)
          cases x with
          | num a => simpa [Val.add] using (hxs.1 (q + a)).2 hxsnot
          | inf => exact absurd rfl hxnot
          | neginf => exact absurd rfl hx.2
          | nan => exact absurd rfl hx.1
      · cases x with
        | num a => simpa [Val.add] using hxs.2
        | inf => simpa [Val.add] using hxs.2
        | neginf => exact absurd rfl hx.2
        | nan => exact absurd rfl hx.1

theorem vsum_nan (l : List Val) (h : Val.nan ∈ l) : vsum l = .nan :=
  foldl_vadd_nan l h _

theorem vsum_inf (l : List Val) (h : ∀ x ∈ l, x ≠ .nan ∧ x ≠ .neginf)
    (hi : Val.inf ∈ l) : vsum l = .inf :=
  ((foldl_vadd_no_nan_neginf l h).1 0).1 hi

theorem vsum_finite (l : List Val) (h : ∀ x ∈ l, x ≠ .nan ∧ x ≠ .neginf)
    (hi : Val.inf ∉ l) : ∃ r : ℚ, vsum l = .num r :=
  ((foldl_vadd_no_nan_neginf l h).1 0).2 hi

theorem vdiv_nan_left (x : Val) : Val.div .nan x = .nan := by
  cases x <;> rfl

theorem vmean_nan (l : List Val) (h : Val.nan ∈ l) : vmean l = .nan := by
  have hl : l.length ≠ 0 := by
    intro h0
    rw [List.length_eq_zero.mp h0] at h
    simp at h
  rw [vmean, if_neg hl, vsum_nan l h, vdiv_nan_left]

theorem vmean_inf (l : List Val) (h : ∀ x ∈ l, x ≠ .nan ∧ x ≠ .neginf)
    (hi : Val.inf ∈ l) : vmean l = .inf := by
  have hl : l.length ≠ 0 := by
    intro h0
    rw [List.length_eq_zero.mp h0] at hi
    simp at hi
  have hnn : ¬ ((l.length : ℚ) < 0) := not_lt.mpr (by positivity)
  rw [vmean, if_neg hl, vsum_inf l h hi]
  simp [Val.div, hnn]

theorem foldl_vadd_zeros (l : List Val) (h : ∀ x ∈ l, x = .num 0) (q : ℚ) :
    l.foldl Val.add (.num q) = .num q := by
  induction l generalizing q with
  | nil => rfl
  | cons x xs ih =>
      have hx : x = .num 0 := h x (List.mem_cons_self x xs)
      rw [List.foldl_cons, hx]
      show List.foldl Val.add (.num (q + 0)) xs = .num q
      rw [add_zero]
      exact ih (fun y hy => h y (List.mem_cons_of_mem x hy)) q

theorem zip_self (y : List ℚ) : y.zip y = y.map fun a => (a, a) := by
  induction y with
  | nil => rfl
  | cons a as ih => simp [List.zip_cons_cons, ih]

/-- C10: for every non-empty sequence y with all elements non-zero,
calculate_mape y y = 0. -/
theorem calculate_mape_self_eq_zero (y : List ℚ) (hne : y ≠ []) (hz : ∀ v ∈ y, v ≠ 0) :
    calculate_mape y y = .num 0 := by
  have hterm : ∀ x ∈ (y.zip y).map mapeTerm, x = Val.num 0 := by
    intro x hx
    rcases List.mem_map.mp hx with ⟨ap, hap, rfl⟩
    rw [zip_self] at hap
    rcases List.mem_map.mp hap with ⟨a, ha, rfl⟩
    rw [mapeTerm_num a a (hz a ha)]
    simp
  have hlen : ((y.zip y).map mapeTerm).length ≠ 0 := by
    rw [List.length_map, List.length_zip, Nat.min_self]
    exact fun h => hne (List.length_eq_zero.mp h)
  rw [calculate_mape_eq_terms, vmean, if_neg hlen, vsum, foldl_vadd_zeros _ hterm 0]
  have hql : ¬ ((((y.zip y).map mapeTerm).length : ℚ) = 0) := by
    exact_mod_cast hlen
  simp [Val.div, Val.mul, hql, hne]

/-- Closed witness for calculate_mape_self_eq_zero at y = [1, 2]. -/
theorem calculate_mape_self_eq_zero_witness :
    ([(1:ℚ), 2] ≠ [] ∧ ∀ v ∈ [(1:ℚ), 2], v ≠ 0) ∧ calculate_mape [1, 2] [1, 2] = .num 0 :=
  ⟨⟨by decide, by decide⟩, calculate_mape_self_eq_zero [1, 2] (by decide) (by decide)⟩

/-- C5 counterexample: with actual value 0 and prediction 1, calculate_mape
returns +inf, not NaN (numpy: (0-1)/0 warns and yields -inf, abs gives inf,
the mean is then inf). -/
theorem calculate_mape_zero_actual_not_nan :
    calculate_mape [0] [1] = Val.inf ∧ calculate_mape [0] [1] ≠ Val.nan := by
  have ht : mapeTerm ((0:ℚ), (1:ℚ)) = Val.inf := by
    rw [mapeTerm_zero]
    norm_num
  have h : calculate_mape [0] [1] = Val.inf := by
    rw [calculate_mape_eq_terms]
    show Val.mul (vmean [mapeTerm ((0:ℚ), (1:ℚ))]) (.num 100) = Val.inf
    rw [ht]
    have hm : vmean [Val.inf] = Val.inf := by
      rw [vmean]
      norm_num [vsum, Val.add, Val.div]
    rw [hm]
    norm_num [Val.mul]
  exact ⟨h, by rw [h]; exact fun hc => Val.noConfusion hc⟩

/-- C5 amended: for equal-length sequences with some actual value zero,
calculate_mape does not raise (it is total) and the result is non-finite:
NaN exactly when some zero-actual position also has prediction zero,
and +inf otherwise. -/
theorem calculate_mape_zero_actual (yt yp : List ℚ) (hlen : yt.length = yp.length)
    (hz : ∃ ap ∈ yt.zip yp, ap.1 = 0) :
    (calculate_mape yt yp = .nan ∨ calculate_mape yt yp = .inf) ∧
    (calculate_mape yt yp = .nan ↔ ∃ ap ∈ yt.zip yp, ap.1 = 0 ∧ ap.2 = 0) := by
  rcases Classical.em (∃ ap ∈ yt.zip yp, ap.1 = 0 ∧ ap.2 = 0) with hnan | hnno
  · rcases hnan with ⟨ap, hap, h1, h2⟩
    have hmem : Val.nan ∈ (yt.zip yp).map mapeTerm := by
      refine List.mem_map.mpr ⟨ap, hap, ?_⟩
      exact (mapeTerm_nan_iff ap.1 ap.2).mpr ⟨h1, h2⟩
    have hmape : calculate_mape yt yp = .nan := by
      rw [calculate_mape_eq_terms, vmean_nan _ hmem]
      rfl
    refine ⟨Or.inl hmape, ?_⟩
    rw [hmape]
    exact ⟨fun _ => ⟨ap, hap, h1, h2⟩, fun _ => rfl⟩
  · have hok : ∀ x ∈ (yt.zip yp).map mapeTerm, x ≠ .nan ∧ x ≠ .neginf := by
      intro x hx
      rcases List.mem_map.mp hx with ⟨ap, hap, rfl⟩
      refine ⟨fun hc => ?_, mapeTerm_ne_neginf ap.1 ap.2⟩
      rcases (mapeTerm_nan_iff ap.1 ap.2).mp hc with ⟨h1, h2⟩
      exact hnno ⟨ap, hap, h1, h2⟩
    rcases hz with ⟨ap, hap, h1⟩
    have h2 : ap.2 ≠ 0 := fun hc => hnno ⟨ap, hap, h1, hc⟩
    have hmem : Val.inf ∈ (yt.zip yp).map mapeTerm := by
      refine List.mem_map.mpr ⟨ap, hap, ?_⟩
      exact (mapeTerm_inf_iff ap.1 ap.2).mpr ⟨h1, h2⟩
    have hmape : calculate_mape yt yp = .inf := by
      rw [calculate_mape_eq_terms, vmean_inf _ hok hmem]
      show Val.mul .inf (.num 100) = .inf
      norm_num [Val.mul]
    refine ⟨Or.inr hmape, ?_⟩
    rw [hmape]
    exact ⟨fun hc => absurd hc (fun hh => Val.noConfusion hh), fun hex => absurd hex hnno⟩

/-- Closed witness for calculate_mape_zero_actual at yt = [0], yp = [1]. -/
theorem calculate_mape_zero_actual_witness :
    (([(0:ℚ)].length = [(1:ℚ)].length) ∧ (∃ ap ∈ [(0:ℚ)].zip [(1:ℚ)], ap.1 = 0)) ∧
    ((calculate_mape [0] [1] = .nan ∨ calculate_mape [0] [1] = .inf) ∧
      (calculate_mape [0] [1] = .nan ↔ ∃ ap ∈ [(0:ℚ)].zip [(1:ℚ)], ap.1 = 0 ∧ ap.2 = 0)) :=
  ⟨⟨rfl, ⟨((0:ℚ), (1:ℚ)), by simp, rfl⟩⟩,
    calculate_mape_zero_actual [0] [1] rfl ⟨((0:ℚ), (1:ℚ)), by simp, rfl⟩⟩

/-- Embeds arima_model.py check_stationarity.  The Augmented Dickey-Fuller
test (statsmodels adfuller) is an external statistical routine; it enters
the embedding as a black-box p-value function pv.  The source returns
result[1] < 0.05. -/
def check_stationarity (pv : List ℚ → ℚ) (series : List ℚ) : Bool :=
  decide (pv series < (0.05 : ℚ))

/-- Embeds pandas series.diff().dropna(): consecutive first-order
differences, one element shorter than the input. -/
def diffSeries (s : List ℚ) : List ℚ :=
  (s.zip s.tail).map fun ab => ab.2 - ab.1

/-- Loop body of arima_model.py make_stationary, as recursion on the
remaining differencing budget (max_diff - d); the while condition is
not check_stationarity(series) and d < max_diff. -/
def make_stationary_go (pv : List ℚ → ℚ) (s : List ℚ) (d remaining : ℕ) : List ℚ × ℕ :=
  match remaining with
  | 0 => (s, d)
  | r + 1 =>
      if check_stationarity pv s then (s, d)
      else make_stationary_go pv (diffSeries s) (d + 1) r

/-- Embeds arima_model.py make_stationary (default max_diff = 2): returns
the differenced series and the differencing order applied. -/
def make_stationary (pv : List ℚ → ℚ) (s : List ℚ) (max_diff : ℕ := 2) : List ℚ × ℕ :=
  make_stationary_go pv s 0 max_diff

/-- n-fold first-order differencing. -/
def iterDiff : ℕ → List ℚ → List ℚ
  | 0, s => s
  | n + 1, s => iterDiff n (diffSeries s)

theorem make_stationary_go_spec (pv : List ℚ → ℚ) (r : ℕ) :
    ∀ (s : List ℚ) (d : ℕ), ∃ n, n ≤ r ∧
      make_stationary_go pv s d r = (iterDiff n s, d + n) ∧
      (∀ j < n, check_stationarity pv (iterDiff j s) = false) ∧
      (n = r ∨ check_stationarity pv (iterDiff n s) = true) := by
  induction r with
  | zero => exact fun s d => ⟨0, le_refl 0, rfl, fun j hj => absurd hj (Nat.not_lt_zero j), Or.inl rfl⟩
  | succ r ih =>
      intro s d
      by_cases hc : check_stationarity pv s
      · exact ⟨0, Nat.zero_le _, by simp [make_stationary_go, hc, iterDiff], fun j hj => absurd hj (Nat.not_lt_zero j), Or.inr hc⟩
      · rcases ih (diffSeries s) (d + 1) with ⟨n, hn, heq, hprev, hlast⟩
        refine ⟨n + 1, Nat.succ_le_succ hn, ?_, ?_, ?_⟩
        · rw [make_stationary_go, if_neg hc, heq]
          have : d + 1 + n = d + (n + 1) := by omega
          rw [this]
          rfl
        · intro j hj
          cases j with
          | zero => exact Bool.eq_false_iff.mpr hc
          | succ j' => exact hprev j' (Nat.lt_of_succ_lt_succ hj)
        · rcases hlast with h1 | h1
          · exact Or.inl (by omega)
          · exact Or.inr h1

/-- C7: the differencing order returned by make_stationary is between 0 and
max_diff, for every series, every max_diff and every p-value behaviour of
the ADF test; the loop always terminates (make_stationary is a total
function, defined by recursion on the remaining budget max_diff - d). -/
theorem make_stationary_order_le (pv : List ℚ → ℚ) (s : List ℚ) (max_diff : ℕ) :
    0 ≤ (make_stationary pv s max_diff).2 ∧ (make_stationary pv s max_diff).2 ≤ max_diff := by
  rcases make_stationary_go_spec pv max_diff s 0 with ⟨n, hn, heq, -, -⟩
  refine ⟨Nat.zero_le _, ?_⟩
  rw [make_stationary, heq]
  simpa using hn

/-- C6 amended: make_stationary applies first-order differencing while the
ADF test FAILS to reject the null of non-stationarity (p-value ≥ 0.05) and
fewer than max_diff steps have been taken, and returns the n-fold
differenced series together with the number n of steps applied. -/
theorem make_stationary_loop_spec (pv : List ℚ → ℚ) (s : List ℚ) (max_diff : ℕ) :
    ∃ n, n ≤ max_diff ∧
      make_stationary pv s max_diff = (iterDiff n s, n) ∧
      (∀ j < n, ¬ (pv (iterDiff j s) < (0.05 : ℚ))) ∧
      (n = max_diff ∨ pv (iterDiff n s) < (0.05 : ℚ)) := by
  rcases make_stationary_go_spec pv max_diff s 0 with ⟨n, hn, heq, hprev, hlast⟩
  refine ⟨n, hn, by simpa [make_stationary] using heq, ?_, ?_⟩
  · intro j hj
    have := hprev j hj
    simpa [check_stationarity] using this
  · rcases hlast with h1 | h1
    · exact Or.inl h1
    · exact Or.inr (by simpa [check_stationarity] using h1)

/-- Follows the words of claim C6 for comparison with the source: a loop
that differences WHILE the stationarity test rejects the null of
non-stationarity (p-value below 0.05). -/
def make_stationary_claimed_go (pv : List ℚ → ℚ) (s : List ℚ) (d remaining : ℕ) : List ℚ × ℕ :=
  match remaining with
  | 0 => (s, d)
  | r + 1 =>
      if check_stationarity pv s then make_stationary_claimed_go pv (diffSeries s) (d + 1) r
      else (s, d)

/-- Claim-side differencing loop (see make_stationary_claimed_go). -/
def make_stationary_claimed (pv : List ℚ → ℚ) (s : List ℚ) (max_diff : ℕ := 2) : List ℚ × ℕ :=
  make_stationary_claimed_go pv s 0 max_diff

/-- C6 counterexample: with an ADF p-value of 0 (the test rejects the null
of non-stationarity immediately), the source loop applies no differencing
at all (d = 0), while the loop described by the claim would difference
max_diff = 2 times; the two disagree at this concrete input. -/
theorem make_stationary_not_while_rejecting :
    make_stationary (fun _ => 0) [1, 2, 4] 2 = ([1, 2, 4], 0) ∧
    make_stationary_claimed (fun _ => 0) [1, 2, 4] 2 = ([1], 2) ∧
    make_stationary (fun _ => 0) [1, 2, 4] 2 ≠ make_stationary_claimed (fun _ => 0) [1, 2, 4] 2 := by
  refine ⟨?_, ?_, ?_⟩
  · norm_num [make_stationary, make_stationary_go, check_stationarity]
  · norm_num [make_stationary_claimed, make_stationary_claimed_go, check_stationarity, diffSeries]
  · norm_num [make_stationary, make_stationary_go, make_stationary_claimed,
      make_stationary_claimed_go, check_stationarity, diffSeries]

/-- Sales table row as used by preprocess.py: the grouping column
(product_id or category) is the entity field; dates are at month
granularity (the pipeline resamples to monthly buckets). -/
structure SalesRow where
  date : ℕ
  entity : ℕ
  sales : ℚ
deriving DecidableEq

/-- Distinct entity keys in ascending order (pandas groupby sorts its group
keys). -/
def entityKeys (rows : List SalesRow) : List ℕ :=
  List.insertionSort (fun a b => a ≤ b) (rows.map (fun r => r.entity)).dedup

/-- Rows of one entity group. -/
def rowsForEntity (rows : List SalesRow) (k : ℕ) : List SalesRow :=
  rows.filter (fun r => r.entity == k)

/-- Embeds sort_values('date'); set_index('date'); resample('M').sum();
[['sales']]: monthly buckets from the earliest to the latest month of the
group, each holding the sum of that month's sales (a month with no rows
sums to 0).  Bucket sums are order-independent, so the preliminary sort by
date leaves no further trace in the result. -/
def resampleMonthly (g : List SalesRow) : List (ℕ × ℚ) :=
  match g with
  | [] => []
  | r :: rs =>
      let lo := (rs.map (fun x => x.date)).foldl min r.date
      let hi := (rs.map (fun x => x.date)).foldl max r.date
      (List.range (hi + 1 - lo)).map fun i =>
        (lo + i,
         ((r :: rs).filter (fun row => row.date == lo + i)).foldl
           (fun acc row => acc + row.sales) 0)

/-- Python slice df.iloc[:-k]: all but the last k rows for 0 < k ≤ n, empty
when k ≥ n, and empty for k = 0 (iloc[:-0] is iloc[:0]). -/
def pyHeadSlice (g : List (ℕ × ℚ)) (k : ℕ) : List (ℕ × ℚ) :=
  if k = 0 then [] else g.take (g.length - k)

/-- Python slice df.iloc[-k:]: the last k rows for 0 < k ≤ n, the whole
frame when k ≥ n, and the whole frame for k = 0 (iloc[-0:] is iloc[0:]). -/
def pyTailSlice (g : List (ℕ × ℚ)) (k : ℕ) : List (ℕ × ℚ) :=
  if k = 0 then g else g.drop (g.length - k)

/-- Embeds preprocess.py preprocess_data (default test_size = 12): per
entity group, the date-sorted monthly-resampled sales series split into a
training prefix (iloc[:-test_size]) and a test suffix (iloc[-test_size:]),
returned as a pair of dictionaries. -/
def preprocess_data (rows : List SalesRow) (test_size : ℕ := 12) :
    List (ℕ × List (ℕ × ℚ)) × List (ℕ × List (ℕ × ℚ)) :=
  ((entityKeys rows).map fun k =>
      (k, pyHeadSlice (resampleMonthly (rowsForEntity rows k)) test_size),
   (entityKeys rows).map fun k =>
      (k, pyTailSlice (resampleMonthly (rowsForEntity rows k)) test_size))

theorem lookup_map_self {β : Type} (l : List ℕ) (f : ℕ → β) (k : ℕ) (hk : k ∈ l) :
    List.lookup k (l.map fun x => (x, f x)) = some (f k) := by
  induction l with
  | nil => simp at hk
  | cons x xs ih =>
      by_cases hx : k = x
      · subst hx
        simp [List.lookup]
      · rcases List.mem_cons.mp hk with h | h
        · exact absurd h hx
        · have hb : (k == x) = false := beq_eq_false_iff_ne.mpr hx
          simpa [List.lookup, hb] using ih h

/-- C8: for every entity group and positive test horizon, preprocess_data
returns train = all but the last test_size points of the resampled series
and test = the last test_size points (the whole series when it has fewer
than test_size points), and training length + test length equals the
resampled series length. -/
theorem preprocess_data_split (rows : List SalesRow) (test_size k : ℕ)
    (ht : 0 < test_size) (hk : k ∈ entityKeys rows) :
    ∃ tr te,
      List.lookup k (preprocess_data rows test_size).1 = some tr ∧
      List.lookup k (preprocess_data rows test_size).2 = some te ∧
      tr = (resampleMonthly (rowsForEntity rows k)).take
            ((resampleMonthly (rowsForEntity rows k)).length - test_size) ∧
      te = (resampleMonthly (rowsForEntity rows k)).drop
            ((resampleMonthly (rowsForEntity rows k)).length - test_size) ∧
      tr ++ te = resampleMonthly (rowsForEntity rows k) ∧
      tr.length + te.length = (resampleMonthly (rowsForEntity rows k)).length := by
  have hne : test_size ≠ 0 := Nat.pos_iff_ne_zero.mp ht
  refine ⟨pyHeadSlice (resampleMonthly (rowsForEntity rows k)) test_size,
          pyTailSlice (resampleMonthly (rowsForEntity rows k)) test_size,
          lookup_map_self (entityKeys rows) _ k hk,
          lookup_map_self (entityKeys rows) _ k hk, ?_, ?_, ?_, ?_⟩
  · rw [pyHeadSlice, if_neg hne]
  · rw [pyTailSlice, if_neg hne]
  · rw [pyHeadSlice, pyTailSlice, if_neg hne, if_neg hne, List.take_append_drop]
  · rw [pyHeadSlice, pyTailSlice, if_neg hne, if_neg hne, List.length_take, List.length_drop]
    omega

/-- Closed witness for preprocess_data_split: one entity with 2 monthly
rows and the default test horizon 12 (fewer rows than the horizon). -/
theorem preprocess_data_split_witness :
    (0 < 12 ∧ 1 ∈ entityKeys [⟨0, 1, 5⟩, ⟨1, 1, 7⟩]) ∧
    (∃ tr te,
      List.lookup 1 (preprocess_data [⟨0, 1, 5⟩, ⟨1, 1, 7⟩] 12).1 = some tr ∧
      List.lookup 1 (preprocess_data [⟨0, 1, 5⟩, ⟨1, 1, 7⟩] 12).2 = some te ∧
      tr = (resampleMonthly (rowsForEntity [⟨0, 1, 5⟩, ⟨1, 1, 7⟩] 1)).take
            ((resampleMonthly (rowsForEntity [⟨0, 1, 5⟩, ⟨1, 1, 7⟩] 1)).length - 12) ∧
      te = (resampleMonthly (rowsForEntity [⟨0, 1, 5⟩, ⟨1, 1, 7⟩] 1)).drop
            ((resampleMonthly (rowsForEntity [⟨0, 1, 5⟩, ⟨1, 1, 7⟩] 1)).length - 12) ∧
      tr ++ te = resampleMonthly (rowsForEntity [⟨0, 1, 5⟩, ⟨1, 1, 7⟩] 1) ∧
      tr.length + te.length = (resampleMonthly (rowsForEntity [⟨0, 1, 5⟩, ⟨1, 1, 7⟩] 1)).length) :=
  ⟨⟨by norm_num, by decide⟩,
    preprocess_data_split [⟨0, 1, 5⟩, ⟨1, 1, 7⟩] 12 1 (by norm_num) (by decide)⟩

/-- Python int(): truncation of a rational toward zero. -/
def pyInt (q : ℚ) : ℤ :=
  if 0 ≤ q then ⌊q⌋ else ⌈q⌉

/-- Random draws consumed by generate_data.py, as black-box functions of
the product id and/or date: np.random.randint / uniform / normal / choice,
the transcendental np.sin(2 pi month / 12) evaluated at each date, and the
day-count fraction (date - start).days / 365. -/
structure Draws where
  categoryOf : ℕ → ℕ
  baseSales : ℕ → ℤ
  trend : ℕ → ℚ
  seasonality : ℕ → ℚ
  noise : ℕ → ℕ → ℚ
  promotion : ℕ → ℕ → ℕ
  price : ℕ → ℕ → ℚ
  sinVal : ℕ → ℚ
  daysFrac : ℕ → ℚ

/-- Row of the synthetic sales table produced by generate_data.py
(category is the drawn category index). -/
structure GenRow where
  date : ℕ
  product_id : ℕ
  category : ℕ
  sales : ℤ
  price : ℚ
  promotion_flag : ℕ
deriving DecidableEq

/-- Embeds generate_data.py generate_synthetic_sales_data over the monthly
date range (a parameter, pd.date_range start end freq M) and the random
draws: sales = max(0, int(base * seasonal * time * (1 + noise) * promo)). -/
def generate_synthetic_sales_data (dr : Draws) (dates : List ℕ) (num_products : ℕ) :
    List GenRow :=
  (List.range num_products).flatMap fun i =>
    let pid := i + 1
    dates.map fun dte =>
      let seasonal_factor := dr.seasonality pid + (0.1 : ℚ) * dr.sinVal dte
      let time_factor := 1 + dr.trend pid * dr.daysFrac dte
      let noise := dr.noise pid dte
      let promo := dr.promotion pid dte
      let sales := pyInt ((dr.baseSales pid : ℚ) * seasonal_factor * time_factor *
        (1 + noise) * (if promo = 0 then 1 else (1.2 : ℚ)))
      { date := dte, product_id := pid, category := dr.categoryOf pid,
        sales := max 0 sales, price := dr.price pid dte, promotion_flag := promo }

/-- C9: every row of the generated synthetic sales table has sales ≥ 0, for
every choice of generator parameters and every realization of the random
draws. -/
theorem generate_sales_nonneg (dr : Draws) (dates : List ℕ) (num_products : ℕ)
    (r : GenRow) (hr : r ∈ generate_synthetic_sales_data dr dates num_products) :
    0 ≤ r.sales := by
  rcases List.mem_flatMap.mp hr with ⟨i, hi, hmem⟩
  rcases List.mem_map.mp hmem with ⟨dte, hd, rfl⟩
  exact le_max_left 0 _

/-- Closed witness for generate_sales_nonneg: one product, one date, all
draws zero. -/
theorem generate_sales_nonneg_witness :
    (({ date := 0, product_id := 1, category := 1, sales := 0, price := 0,
        promotion_flag := 0 } : GenRow) ∈
      generate_synthetic_sales_data
        { categoryOf := fun _ => 1, baseSales := fun _ => 0, trend := fun _ => 0,
          seasonality := fun _ => 0, noise := fun _ _ => 0, promotion := fun _ _ => 0,
          price := fun _ _ => 0, sinVal := fun _ => 0, daysFrac := fun _ => 0 } [0] 1) ∧
    (0 : ℤ) ≤ GenRow.sales ⟨0, 1, 1, 0, 0, 0⟩ :=
  ⟨by norm_num [generate_synthetic_sales_data, pyInt],
    generate_sales_nonneg
      { categoryOf := fun _ => 1, baseSales := fun _ => 0, trend := fun _ => 0,
        seasonality := fun _ => 0, noise := fun _ _ => 0, promotion := fun _ _ => 0,
        price := fun _ _ => 0, sinVal := fun _ => 0, daysFrac := fun _ => 0 } [0] 1 _
      (by norm_num [generate_synthetic_sales_data, pyInt])⟩

/-- Fitted-ARIMA abstraction.  statsmodels ARIMA(series, order).fit() is an
external numerical routine that can raise (LinAlgError and friends on
short or degenerate series); a library valuation maps the series and the
(p, d, q) order either to a fit failure or to a fitted model, represented
by its forecast value function (step index → value). -/
structure ArimaLib where
  fit : List ℚ → ℕ × ℕ × ℕ → Except String (ℕ → ℚ)

/-- Embeds arima_model.py train_arima: ARIMA(series, order).fit(). -/
def train_arima (lib : ArimaLib) (series : List ℚ) (order : ℕ × ℕ × ℕ) :
    Except String (ℕ → ℚ) :=
  lib.fit series order

/-- Embeds arima_model.py forecast_arima: model.forecast(steps) returns
exactly steps values (the statsmodels contract), drawn from the fitted
model's value function. -/
def forecast_arima (model : ℕ → ℚ) (steps : ℕ := 12) : List ℚ :=
  (List.range steps).map model

/-- Embeds arima_model.py arima_pipeline: for each entity in dict order,
make the sales series stationary (default max_diff = 2), fit order
(1, d, 1) on the DIFFERENCED series, and forecast forecast_steps values.
The source has no try/except: the first fit failure propagates out of the
loop and aborts the whole batch, which the embedding renders as the
Except error short-circuiting the recursion. -/
def arima_pipeline (lib : ArimaLib) (pv : List ℚ → ℚ)
    (train_data_dict : List (ℕ × List (ℕ × ℚ))) (forecast_steps : ℕ := 12) :
    Except String (List (ℕ × List ℚ)) :=
  match train_data_dict with
  | [] => Except.ok []
  | (key, df) :: rest =>
      let series := df.map fun p => p.2
      let sd := make_stationary pv series
      match train_arima lib sd.1 (1, sd.2, 1) with
      | .error e => .error e
      | .ok model =>
          match arima_pipeline lib pv rest forecast_steps with
          | .error e => .error e
          | .ok forecasts => .ok ((key, forecast_arima model forecast_steps) :: forecasts)

theorem forecast_arima_length (model : ℕ → ℚ) (steps : ℕ) :
    (forecast_arima model steps).length = steps := by
  simp [forecast_arima]

/-- C1: arima_pipeline does NOT catch per-entity fit failures.  With a fit
that raises on series shorter than 2 points, a training dictionary holding
one degenerate entity (id 1, a single point) and one healthy entity (id 2)
makes the whole batch abort with the error: no forecast is returned for
any entity, contradicting the claim that the failure is caught and the
other entities' forecasts are still returned. -/
theorem arima_pipeline_not_isolating :
    arima_pipeline
        ⟨fun s _ => if s.length < 2 then .error "LinAlgError" else .ok fun _ => 0⟩
        (fun _ => 0) [(1, [(0, 5)]), (2, [(0, 1), (1, 2), (2, 3)])] 12 =
      .error "LinAlgError" ∧
    ∀ out, arima_pipeline
        ⟨fun s _ => if s.length < 2 then .error "LinAlgError" else .ok fun _ => 0⟩
        (fun _ => 0) [(1, [(0, 5)]), (2, [(0, 1), (1, 2), (2, 3)])] 12 ≠
      .ok out := by
  have h : arima_pipeline
      ⟨fun s _ => if s.length < 2 then .error "LinAlgError" else .ok fun _ => 0⟩
      (fun _ => 0) [(1, [(0, 5)]), (2, [(0, 1), (1, 2), (2, 3)])] 12 =
      .error "LinAlgError" := by
    norm_num [arima_pipeline, train_arima, make_stationary, make_stationary_go,
      check_stationarity]
  exact ⟨h, fun out hc => by rw [h] at hc; exact Except.noConfusion hc⟩

/-- Follows the words of claim C2, for comparison with the source: a
pipeline that fits the order-(1, d, 1) model to the entity's ORIGINAL
training series (d still taken from the stationarity loop) instead of the
differenced series. -/
def arima_pipeline_claimed (lib : ArimaLib) (pv : List ℚ → ℚ)
    (train_data_dict : List (ℕ × List (ℕ × ℚ))) (forecast_steps : ℕ := 12) :
    Except String (List (ℕ × List ℚ)) :=
  match train_data_dict with
  | [] => Except.ok []
  | (key, df) :: rest =>
      let series := df.map fun p => p.2
      let sd := make_stationary pv series
      match train_arima lib series (1, sd.2, 1) with
      | .error e => .error e
      | .ok model =>
          match arima_pipeline_claimed lib pv rest forecast_steps with
          | .error e => .error e
          | .ok forecasts => .ok ((key, forecast_arima model forecast_steps) :: forecasts)

/-- C2 counterexample: take a fit whose model forecasts the sum of the
series it was fitted on, and a p-value valuation that reports the original
3-point series [10, 20, 40] as non-stationary and its difference [10, 20]
as stationary (so d = 1).  The source pipeline fits on the differenced
series and forecasts 30 = 10 + 20; fitting on the original series as the
claim states would forecast 70 = 10 + 20 + 40.  The source output differs
from the claimed behaviour at this input. -/
theorem arima_pipeline_fits_differenced_series :
    arima_pipeline ⟨fun s _ => .ok fun _ => s.foldl (fun a b => a + b) 0⟩
        (fun s => if s.length = 3 then 1 else 0) [(1, [(0, 10), (1, 20), (2, 40)])] 2 =
      .ok [(1, [30, 30])] ∧
    arima_pipeline_claimed ⟨fun s _ => .ok fun _ => s.foldl (fun a b => a + b) 0⟩
        (fun s => if s.length = 3 then 1 else 0) [(1, [(0, 10), (1, 20), (2, 40)])] 2 =
      .ok [(1, [70, 70])] ∧
    arima_pipeline ⟨fun s _ => .ok fun _ => s.foldl (fun a b => a + b) 0⟩
        (fun s => if s.length = 3 then 1 else 0) [(1, [(0, 10), (1, 20), (2, 40)])] 2 ≠
      arima_pipeline_claimed ⟨fun s _ => .ok fun _ => s.foldl (fun a b => a + b) 0⟩
        (fun s => if s.length = 3 then 1 else 0) [(1, [(0, 10), (1, 20), (2, 40)])] 2 := by
  refine ⟨?_, ?_, ?_⟩ <;>
    norm_num [arima_pipeline, arima_pipeline_claimed, train_arima, forecast_arima,
      make_stationary, make_stationary_go, check_stationarity, diffSeries, List.range_succ]

/-- C2 amended: for every entity of the training dictionary, when the
batch succeeds, the ARIMA model was fitted to the entity's
stationarity-DIFFERENCED series with order (1, d, 1) — d the differencing
order from make_stationary on that series — and the entity's output is the
fitted model's point forecast for the next forecast_steps periods
(default 12), one output entry per entity in dictionary order. -/
theorem arima_pipeline_fit_on_differenced (lib : ArimaLib) (pv : List ℚ → ℚ)
    (dict : List (ℕ × List (ℕ × ℚ))) (steps : ℕ) (out : List (ℕ × List ℚ))
    (hok : arima_pipeline lib pv dict steps = .ok out) :
    List.Forall₂ (fun (entry : ℕ × List (ℕ × ℚ)) (res : ℕ × List ℚ) =>
      ∃ model,
        lib.fit (make_stationary pv (entry.2.map fun p => p.2)).1
            (1, (make_stationary pv (entry.2.map fun p => p.2)).2, 1) = .ok model ∧
        res = (entry.1, forecast_arima model steps) ∧
        res.2.length = steps) dict out := by
  induction dict generalizing out with
  | nil =>
      simp only [arima_pipeline] at hok
      cases hok
      exact List.Forall₂.nil
  | cons kv rest ih =>
      obtain ⟨key, df⟩ := kv
      simp only [arima_pipeline] at hok
      cases hfit : train_arima lib (make_stationary pv (df.map fun p => p.2)).1
          (1, (make_stationary pv (df.map fun p => p.2)).2, 1) with
      | error e => rw [hfit] at hok; cases hok
      | ok model =>
          rw [hfit] at hok
          cases hrec : arima_pipeline lib pv rest steps with
          | error e => rw [hrec] at hok; cases hok
          | ok forecasts =>
              rw [hrec] at hok
              cases hok
              exact List.Forall₂.cons
                ⟨model, hfit, rfl, forecast_arima_length model steps⟩ (ih forecasts hrec)

/-- Closed witness for arima_pipeline_fit_on_differenced: a one-entity
dictionary with an always-succeeding constant fit. -/
theorem arima_pipeline_fit_on_differenced_witness :
    (arima_pipeline ⟨fun _ _ => .ok fun _ => 0⟩ (fun _ => 0) [(1, [(0, 5)])] 1 =
      .ok [(1, [0])]) ∧
    List.Forall₂ (fun (entry : ℕ × List (ℕ × ℚ)) (res : ℕ × List ℚ) =>
      ∃ model,
        ArimaLib.fit ⟨fun _ _ => .ok fun _ => 0⟩
            (make_stationary (fun _ => 0) (entry.2.map fun p => p.2)).1
            (1, (make_stationary (fun _ => 0) (entry.2.map fun p => p.2)).2, 1) = .ok model ∧
        res = (entry.1, forecast_arima model 1) ∧
        res.2.length = 1) [(1, [(0, 5)])] [(1, [0])] := by
  have h : arima_pipeline ⟨fun _ _ => .ok fun _ => 0⟩ (fun _ => 0) [(1, [(0, 5)])] 1 =
      .ok [(1, [0])] := by
    norm_num [arima_pipeline, train_arima, forecast_arima, make_stationary,
      make_stationary_go, check_stationarity, List.range_succ]
  exact ⟨h, arima_pipeline_fit_on_differenced _ _ _ _ _ h⟩

/-- Prophet abstraction.  Model fitting and per-date prediction are an
external numerical routine; a library valuation maps the training frame
(ds, y rows) and a date to the predicted (yhat, yhat_lower, yhat_upper)
triple.  The structural contracts kept by the embedding: the fitted model
retains its training history; make_future_dataframe(periods) extends the
history dates by periods further months; predict returns one row per
future row. -/
structure ProphetLib where
  predictAt : List (ℕ × ℚ) → ℕ → ℚ × ℚ × ℚ

/-- Embeds prophet_model.py train_prophet: reset_index()[['date','sales']]
renamed to (ds, y); Prophet().fit keeps the training frame as the model's
history (predicted values come from the library valuation). -/
def train_prophet (df : List (ℕ × ℚ)) : List (ℕ × ℚ) := df

/-- Forecast frame produced by Prophet predict: for each row a date with
yhat and its uncertainty bounds. -/
structure ProphetForecast where
  ds : List ℕ
  yhat : List ℚ
  yhat_lower : List ℚ
  yhat_upper : List ℚ
deriving DecidableEq

/-- Embeds model.make_future_dataframe(periods, freq='M'): the history
dates followed by periods further consecutive months after the last one. -/
def make_future_dataframe (model : List (ℕ × ℚ)) (periods : ℕ) : List ℕ :=
  (model.map fun p => p.1) ++
    (List.range periods).map fun i => ((model.map fun p => p.1).foldl max 0) + i + 1

/-- Embeds prophet_model.py forecast_prophet: future =
make_future_dataframe(periods, M), forecast = model.predict(future), one
forecast row per future date. -/
def forecast_prophet (lib : ProphetLib) (model : List (ℕ × ℚ)) (periods : ℕ := 12) :
    ProphetForecast :=
  let future := make_future_dataframe model periods
  { ds := future
    yhat := future.map fun d => (lib.predictAt model d).1
    yhat_lower := future.map fun d => (lib.predictAt model d).2.1
    yhat_upper := future.map fun d => (lib.predictAt model d).2.2 }

/-- Embeds prophet_model.py prophet_pipeline: one forecast frame per
entity, in dictionary order. -/
def prophet_pipeline (lib : ProphetLib) (train_data_dict : List (ℕ × List (ℕ × ℚ)))
    (forecast_steps : ℕ := 12) : List (ℕ × ProphetForecast) :=
  train_data_dict.map fun kv =>
    (kv.1, forecast_prophet lib (train_prophet kv.2) forecast_steps)

theorem forecast_prophet_yhat_length (lib : ProphetLib) (model : List (ℕ × ℚ))
    (periods : ℕ) :
    (forecast_prophet lib model periods).yhat.length = model.length + periods := by
  simp [forecast_prophet, make_future_dataframe]

/-- Embeds sklearn.metrics.mean_absolute_error on equal-length arrays. -/
def mean_absolute_error (actual predicted : List ℚ) : ℚ :=
  (((actual.zip predicted).map fun ap => |ap.1 - ap.2|).foldl (fun a b => a + b) 0) /
    actual.length

/-- Embeds sklearn.metrics.mean_squared_error on equal-length arrays. -/
def mean_squared_error (actual predicted : List ℚ) : ℚ :=
  (((actual.zip predicted).map fun ap => (ap.1 - ap.2) ^ 2).foldl (fun a b => a + b) 0) /
    actual.length

/-- Metrics dictionary returned by evaluate.py evaluate_forecast. -/
structure Metrics where
  mae : ℚ
  rmse : ℚ
  mape : Val
deriving DecidableEq

/-- Embeds evaluate.py evaluate_forecast, with sklearn's input validation:
mean_absolute_error raises ValueError on arrays of different lengths or on
empty arrays, before any metric for the entity is produced.  np.sqrt is
the black-box sqrtFn. -/
def evaluate_forecast (sqrtFn : ℚ → ℚ) (actual predicted : List ℚ) :
    Except String Metrics :=
  if actual.length = predicted.length ∧ actual.length ≠ 0 then
    Except.ok
      { mae := mean_absolute_error actual predicted
        rmse := sqrtFn (mean_squared_error actual predicted)
        mape := calculate_mape actual predicted }
  else Except.error "ValueError: inconsistent numbers of samples"

/-- Row of the comparison DataFrame built by compare_models. -/
structure CompareRow where
  key : ℕ
  arima : Metrics
  prophet : Metrics
deriving DecidableEq

/-- Python slice xs[-n:]: the last n elements for 0 < n ≤ len, the whole
list for n ≥ len and for n = 0 (xs[-0:] is xs[0:]). -/
def pyLastSlice (xs : List ℚ) (n : ℕ) : List ℚ :=
  if n = 0 then xs else xs.drop (xs.length - n)

/-- Embeds evaluate.py compare_models: iterate over the ARIMA forecast
keys; a key also present in test_data contributes one row;
prophet_forecasts[key] is a plain dict access and raises KeyError when the
key is absent; the Prophet prediction is the last len(arima_pred) yhat
values; both metric sets are computed against the FULL test series (no
length matching against the test suffix: sklearn raises on mismatch). -/
def compare_models (sqrtFn : ℚ → ℚ) (arima_forecasts : List (ℕ × List ℚ))
    (prophet_forecasts : List (ℕ × ProphetForecast))
    (test_data : List (ℕ × List (ℕ × ℚ))) : Except String (List CompareRow) :=
  match arima_forecasts with
  | [] => Except.ok []
  | (key, arima_pred) :: rest =>
      match List.lookup key test_data with
      | none => compare_models sqrtFn rest prophet_forecasts test_data
      | some testdf =>
          let actual := testdf.map fun p => p.2
          match List.lookup key prophet_forecasts with
          | none => Except.error "KeyError"
          | some pf =>
              match evaluate_forecast sqrtFn actual arima_pred,
                    evaluate_forecast sqrtFn actual (pyLastSlice pf.yhat arima_pred.length) with
              | .error e, _ => .error e
              | .ok _, .error e => .error e
              | .ok am, .ok pm =>
                  match compare_models sqrtFn rest prophet_forecasts test_data with
                  | .error e => .error e
                  | .ok rows => .ok ({ key := key, arima := am, prophet := pm } :: rows)

theorem evaluate_forecast_ok (sqrtFn : ℚ → ℚ) (actual predicted : List ℚ)
    (h1 : actual.length = predicted.length) (h2 : actual.length ≠ 0) :
    evaluate_forecast sqrtFn actual predicted =
      .ok ⟨mean_absolute_error actual predicted,
           sqrtFn (mean_squared_error actual predicted),
           calculate_mape actual predicted⟩ := by
  rw [evaluate_forecast, if_pos ⟨h1, h2⟩]

/-- C4 counterexample: entity 1 has an ARIMA forecast and a test series but
no Prophet forecast.  The claim predicts a comparison table with no row
for entity 1 (it is not present in both forecast outputs); the source
instead raises KeyError on prophet_forecasts[1] and returns no table at
all. -/
theorem compare_models_keyerror_on_missing_prophet :
    compare_models (fun q => q) [(1, [5])] [] [(1, [(0, 6)])] = .error "KeyError" ∧
    ∀ rows, compare_models (fun q => q) [(1, [5])] [] [(1, [(0, 6)])] ≠ .ok rows := by
  have h : compare_models (fun q => q) [(1, [5])] [] [(1, [(0, 6)])] =
      .error "KeyError" := by
    norm_num [compare_models, List.lookup]
  exact ⟨h, fun rows hc => by rw [h] at hc; exact Except.noConfusion hc⟩

/-- C4 amended: compare_models returns exactly one comparison row per
entity present in the ARIMA forecasts AND the test set (in that key
order), provided every such entity also appears in the Prophet forecasts
and the full test series length matches each forecast slice length (the
Prophet slice being the last len(arima) yhat values); each row's metrics
come from evaluate_forecast against the full test series.  An entity
missing from the Prophet forecasts raises KeyError, and a test/forecast
length mismatch raises ValueError, instead of aligning to the shorter
sequence. -/
theorem compare_models_rows (sqrtFn : ℚ → ℚ) (arimaF : List (ℕ × List ℚ))
    (prophetF : List (ℕ × ProphetForecast)) (test : List (ℕ × List (ℕ × ℚ)))
    (h : ∀ kv ∈ arimaF, ∀ testdf, List.lookup kv.1 test = some testdf →
      ∃ pf, List.lookup kv.1 prophetF = some pf ∧
        testdf.length = kv.2.length ∧
        (pyLastSlice pf.yhat kv.2.length).length = testdf.length ∧
        testdf.length ≠ 0) :
    ∃ rows, compare_models sqrtFn arimaF prophetF test = .ok rows ∧
      List.Forall₂ (fun (kv : ℕ × List ℚ) (r : CompareRow) =>
        r.key = kv.1 ∧
        ∃ testdf pf, List.lookup kv.1 test = some testdf ∧
          List.lookup kv.1 prophetF = some pf ∧
          evaluate_forecast sqrtFn (testdf.map fun p => p.2) kv.2 = .ok r.arima ∧
          evaluate_forecast sqrtFn (testdf.map fun p => p.2)
            (pyLastSlice pf.yhat kv.2.length) = .ok r.prophet)
        (arimaF.filter fun kv => (List.lookup kv.1 test).isSome) rows := by
  induction arimaF with
  | nil => exact ⟨[], rfl, by simp⟩
  | cons kv rest ih =>
      obtain ⟨key, apred⟩ := kv
      rcases ih (fun kv2 hkv2 => h kv2 (List.mem_cons_of_mem _ hkv2)) with ⟨rows, hrows, hfa⟩
      cases htest : List.lookup key test with
      | none =>
          refine ⟨rows, ?_, ?_⟩
          · simp only [compare_models, htest]
            exact hrows
          · simpa [List.filter_cons, htest] using hfa
      | some testdf =>
          rcases h (key, apred) (List.mem_cons_self _ _) testdf htest with
            ⟨pf, hpf, hl1, hl2, hl3⟩
          have hA1 : (testdf.map fun p => p.2).length = apred.length := by
            simpa using hl1
          have hA0 : (testdf.map fun p => p.2).length ≠ 0 := by
            simpa using hl3
          have hB1 : (testdf.map fun p => p.2).length =
              (pyLastSlice pf.yhat apred.length).length := by
            rw [List.length_map, hl2]
          have heA := evaluate_forecast_ok sqrtFn (testdf.map fun p => p.2) apred hA1 hA0
          have heB := evaluate_forecast_ok sqrtFn (testdf.map fun p => p.2)
            (pyLastSlice pf.yhat apred.length) hB1 hA0
          refine ⟨⟨key,
              ⟨mean_absolute_error (testdf.map fun p => p.2) apred,
               sqrtFn (mean_squared_error (testdf.map fun p => p.2) apred),
               calculate_mape (testdf.map fun p => p.2) apred⟩,
              ⟨mean_absolute_error (testdf.map fun p => p.2)
                 (pyLastSlice pf.yhat apred.length),
               sqrtFn (mean_squared_error (testdf.map fun p => p.2)
                 (pyLastSlice pf.yhat apred.length)),
               calculate_mape (testdf.map fun p => p.2)
                 (pyLastSlice pf.yhat apred.length)⟩⟩ :: rows, ?_, ?_⟩
          · simp only [compare_models, htest, hpf, heA, heB, hrows]
          · rw [List.filter_cons_of_pos (by simp [htest])]
            exact List.Forall₂.cons ⟨rfl, testdf, pf, htest, hpf, heA, heB⟩ hfa

/-- Closed witness for compare_models_rows: one entity present in all
three dictionaries, matching lengths 1. -/
theorem compare_models_rows_witness :
    (∀ kv ∈ [((1:ℕ), [(5:ℚ)])], ∀ testdf,
      List.lookup kv.1 [((1:ℕ), [((0:ℕ), (6:ℚ))])] = some testdf →
      ∃ pf, List.lookup kv.1
          [((1:ℕ), ({ ds := [0], yhat := [7], yhat_lower := [0], yhat_upper := [9] } :
            ProphetForecast))] = some pf ∧
        testdf.length = kv.2.length ∧
        (pyLastSlice pf.yhat kv.2.length).length = testdf.length ∧
        testdf.length ≠ 0) ∧
    (∃ rows, compare_models (fun q => q) [((1:ℕ), [(5:ℚ)])]
        [((1:ℕ), { ds := [0], yhat := [7], yhat_lower := [0], yhat_upper := [9] })]
        [((1:ℕ), [((0:ℕ), (6:ℚ))])] = .ok rows ∧
      List.Forall₂ (fun (kv : ℕ × List ℚ) (r : CompareRow) =>
        r.key = kv.1 ∧
        ∃ testdf pf, List.lookup kv.1 [((1:ℕ), [((0:ℕ), (6:ℚ))])] = some testdf ∧
          List.lookup kv.1
            [((1:ℕ), ({ ds := [0], yhat := [7], yhat_lower := [0], yhat_upper := [9] } :
              ProphetForecast))] = some pf ∧
          evaluate_forecast (fun q => q) (testdf.map fun p => p.2) kv.2 = .ok r.arima ∧
          evaluate_forecast (fun q => q) (testdf.map fun p => p.2)
            (pyLastSlice pf.yhat kv.2.length) = .ok r.prophet)
        (([((1:ℕ), [(5:ℚ)])]).filter fun kv =>
          (List.lookup kv.1 [((1:ℕ), [((0:ℕ), (6:ℚ))])]).isSome) rows) := by
  have hyp : ∀ kv ∈ [((1:ℕ), [(5:ℚ)])], ∀ testdf,
      List.lookup kv.1 [((1:ℕ), [((0:ℕ), (6:ℚ))])] = some testdf →
      ∃ pf, List.lookup kv.1
          [((1:ℕ), ({ ds := [0], yhat := [7], yhat_lower := [0], yhat_upper := [9] } :
            ProphetForecast))] = some pf ∧
        testdf.length = kv.2.length ∧
        (pyLastSlice pf.yhat kv.2.length).length = testdf.length ∧
        testdf.length ≠ 0 := by
    intro kv hkv testdf htd
    have hkv1 : kv = ((1:ℕ), [(5:ℚ)]) := by simpa using hkv
    subst hkv1
    simp only [List.lookup] at htd
    norm_num at htd
    refine ⟨{ ds := [0], yhat := [7], yhat_lower := [0], yhat_upper := [9] }, ?_, ?_, ?_, ?_⟩
    · rfl
    · rw [← htd]
      rfl
    · rw [← htd]
      norm_num [pyLastSlice]
    · rw [← htd]
      norm_num
  exact ⟨hyp, compare_models_rows (fun q => q) _ _ _ hyp⟩

theorem foldl_add_nonneg (l : List ℚ) (h : ∀ x ∈ l, 0 ≤ x) :
    ∀ acc : ℚ, 0 ≤ acc → 0 ≤ l.foldl (fun a b => a + b) acc := by
  induction l with
  | nil => exact fun acc hacc => hacc
  | cons x xs ih =>
      intro acc hacc
      exact ih (fun y hy => h y (List.mem_cons_of_mem x hy)) (acc + x)
        (add_nonneg hacc (h x (List.mem_cons_self x xs)))

theorem mean_absolute_error_nonneg (actual predicted : List ℚ) :
    0 ≤ mean_absolute_error actual predicted := by
  apply div_nonneg
  · apply foldl_add_nonneg _ _ 0 le_rfl
    intro x hx
    rcases List.mem_map.mp hx with ⟨ap, _, rfl⟩
    exact abs_nonneg _
  · exact Nat.cast_nonneg _

theorem mean_squared_error_nonneg (actual predicted : List ℚ) :
    0 ≤ mean_squared_error actual predicted := by
  apply div_nonneg
  · apply foldl_add_nonneg _ _ 0 le_rfl
    intro x hx
    rcases List.mem_map.mp hx with ⟨ap, _, rfl⟩
    exact sq_nonneg _
  · exact Nat.cast_nonneg _

theorem foldl_vadd_num (l : List ℚ) (q : ℚ) :
    (l.map Val.num).foldl Val.add (.num q) = .num (l.foldl (fun a b => a + b) q) := by
  induction l generalizing q with
  | nil => rfl
  | cons x xs ih => simpa [Val.add] using ih (q + x)

theorem vdiv_num (a b : ℚ) (hb : ¬ (b = 0)) : Val.div (.num a) (.num b) = .num (a / b) := by
  simp [Val.div, hb]

theorem vmul_num (a b : ℚ) : Val.mul (.num a) (.num b) = .num (a * b) := rfl

/-- With every actual value non-zero (and a non-empty zip), calculate_mape
is a non-negative finite number. -/
theorem calculate_mape_all_nonzero (yt yp : List ℚ) (hne : yt.zip yp ≠ [])
    (hz : ∀ ap ∈ yt.zip yp, ap.1 ≠ 0) :
    ∃ q, calculate_mape yt yp = .num q ∧ 0 ≤ q := by
  have hmap : (yt.zip yp).map mapeTerm =
      ((yt.zip yp).map fun ap => |(ap.1 - ap.2) / ap.1|).map Val.num := by
    rw [List.map_map]
    apply List.map_congr_left
    intro ap hap
    cases ap with
    | mk a p => exact mapeTerm_num a p (hz (a, p) hap)
  have hlen : ((yt.zip yp).map mapeTerm).length ≠ 0 := by
    simpa using fun hh => hne (List.length_eq_zero.mp hh)
  have hsum : 0 ≤ ((yt.zip yp).map fun ap => |(ap.1 - ap.2) / ap.1|).foldl
      (fun a b => a + b) 0 := by
    apply foldl_add_nonneg _ _ 0 le_rfl
    intro x hx
    rcases List.mem_map.mp hx with ⟨ap, _, rfl⟩
    exact abs_nonneg _
  have hq : ¬ (((yt.zip yp).length : ℚ) = 0) := by
    have : (yt.zip yp).length ≠ 0 := fun hh => hne (List.length_eq_zero.mp hh)
    exact_mod_cast this
  refine ⟨(((yt.zip yp).map fun ap => |(ap.1 - ap.2) / ap.1|).foldl (fun a b => a + b) 0 /
      ((yt.zip yp).length : ℚ)) * 100, ?_, ?_⟩
  · rw [calculate_mape_eq_terms, vmean, if_neg hlen, vsum, hmap, foldl_vadd_num]
    simp only [List.length_map]
    rw [vdiv_num _ _ hq, vmul_num]
  · apply mul_nonneg _ (by norm_num)
    exact div_nonneg hsum (Nat.cast_nonneg _)

/-- C3 amended: for a single-entity input whose resampled series has 48
monthly points and test horizon 12 — under any always-succeeding ARIMA fit
valuation, any Prophet prediction valuation, any ADF p-value valuation and
any np.sqrt valuation sending non-negatives to non-negatives — the ARIMA
forecaster returns exactly 12 projected values for the entity, while the
Prophet forecaster returns a forecast over the 36 training points EXTENDED
by 12 periods, i.e. 48 projected values rather than 12 (its last 12 yhat
values feed the evaluator); compare_models returns exactly one comparison
row; both models' MAE and RMSE entries are non-negative; both MAPE entries
are non-negative finite numbers whenever every test-period actual is
non-zero, and can be NaN only when some test-period actual is zero. -/
theorem pipeline_end_to_end (rows : List SalesRow) (k : ℕ)
    (alib : ArimaLib) (plib : ProphetLib) (pv : List ℚ → ℚ) (sqrtFn : ℚ → ℚ)
    (hkeys : entityKeys rows = [k])
    (hlen : (resampleMonthly (rowsForEntity rows k)).length = 48)
    (hfit : ∀ s o, ∃ m, alib.fit s o = Except.ok m)
    (hsqrt : ∀ q, 0 ≤ q → 0 ≤ sqrtFn q) :
    ∃ fc pf am pm,
      arima_pipeline alib pv (preprocess_data rows 12).1 12 = .ok [(k, fc)] ∧
      fc.length = 12 ∧
      prophet_pipeline plib (preprocess_data rows 12).1 12 = [(k, pf)] ∧
      ProphetForecast.yhat pf ≠ [] ∧
      (ProphetForecast.yhat pf).length = 48 ∧
      ¬ (ProphetForecast.yhat pf).length = 12 ∧
      compare_models sqrtFn [(k, fc)] [(k, pf)] (preprocess_data rows 12).2 =
        .ok [⟨k, am, pm⟩] ∧
      0 ≤ am.mae ∧ 0 ≤ am.rmse ∧ 0 ≤ pm.mae ∧ 0 ≤ pm.rmse ∧
      ((∀ p ∈ pyTailSlice (resampleMonthly (rowsForEntity rows k)) 12, p.2 ≠ 0) →
        (∃ q, am.mape = .num q ∧ 0 ≤ q) ∧ (∃ q, pm.mape = .num q ∧ 0 ≤ q)) ∧
      ((am.mape = .nan ∨ pm.mape = .nan) →
        ∃ p ∈ pyTailSlice (resampleMonthly (rowsForEntity rows k)) 12, p.2 = 0) := by
  have hpre1 : (preprocess_data rows 12).1 =
      [(k, pyHeadSlice (resampleMonthly (rowsForEntity rows k)) 12)] := by
    simp [preprocess_data, hkeys]
  have hpre2 : (preprocess_data rows 12).2 =
      [(k, pyTailSlice (resampleMonthly (rowsForEntity rows k)) 12)] := by
    simp [preprocess_data, hkeys]
  have h12 : ¬ ((12 : ℕ) = 0) := by norm_num
  have htrainlen : (pyHeadSlice (resampleMonthly (rowsForEntity rows k)) 12).length = 36 := by
    rw [pyHeadSlice, if_neg h12, List.length_take, hlen]
    norm_num
  have htestlen : (pyTailSlice (resampleMonthly (rowsForEntity rows k)) 12).length = 12 := by
    rw [pyTailSlice, if_neg h12, List.length_drop, hlen]
  obtain ⟨m, hm⟩ := hfit
    (make_stationary pv ((pyHeadSlice (resampleMonthly (rowsForEntity rows k)) 12).map
      fun p => p.2)).1
    (1, (make_stationary pv ((pyHeadSlice (resampleMonthly (rowsForEntity rows k)) 12).map
      fun p => p.2)).2, 1)
  have hari : arima_pipeline alib pv (preprocess_data rows 12).1 12 =
      .ok [(k, forecast_arima m 12)] := by
    rw [hpre1]
    simp [arima_pipeline, train_arima, hm]
  have hfl : (forecast_arima m 12).length = 12 := forecast_arima_length m 12
  have hpro : prophet_pipeline plib (preprocess_data rows 12).1 12 =
      [(k, forecast_prophet plib (pyHeadSlice (resampleMonthly (rowsForEntity rows k)) 12) 12)] := by
    rw [hpre1]
    rfl
  have hyl : (forecast_prophet plib
      (pyHeadSlice (resampleMonthly (rowsForEntity rows k)) 12) 12).yhat.length = 48 := by
    rw [forecast_prophet_yhat_length, htrainlen]
  have hal : ((pyTailSlice (resampleMonthly (rowsForEntity rows k)) 12).map
      fun p => p.2).length = 12 := by
    rw [List.length_map, htestlen]
  have hpl : (pyLastSlice (forecast_prophet plib
      (pyHeadSlice (resampleMonthly (rowsForEntity rows k)) 12) 12).yhat
      (forecast_arima m 12).length).length = 12 := by
    rw [hfl, pyLastSlice, if_neg h12, List.length_drop, hyl]
  have heA := evaluate_forecast_ok sqrtFn
    ((pyTailSlice (resampleMonthly (rowsForEntity rows k)) 12).map fun p => p.2)
    (forecast_arima m 12) (by rw [hal, hfl]) (by rw [hal]; norm_num)
  have heB := evaluate_forecast_ok sqrtFn
    ((pyTailSlice (resampleMonthly (rowsForEntity rows k)) 12).map fun p => p.2)
    (pyLastSlice (forecast_prophet plib
      (pyHeadSlice (resampleMonthly (rowsForEntity rows k)) 12) 12).yhat
      (forecast_arima m 12).length) (by rw [hal, hpl]) (by rw [hal]; norm_num)
  have hcomp : compare_models sqrtFn [(k, forecast_arima m 12)]
      [(k, forecast_prophet plib (pyHeadSlice (resampleMonthly (rowsForEntity rows k)) 12) 12)]
      (preprocess_data rows 12).2 =
      .ok [⟨k,
        ⟨mean_absolute_error
            ((pyTailSlice (resampleMonthly (rowsForEntity rows k)) 12).map fun p => p.2)
            (forecast_arima m 12),
          sqrtFn (mean_squared_error
            ((pyTailSlice (resampleMonthly (rowsForEntity rows k)) 12).map fun p => p.2)
            (forecast_arima m 12)),
          calculate_mape
            ((pyTailSlice (resampleMonthly (rowsForEntity rows k)) 12).map fun p => p.2)
            (forecast_arima m 12)⟩,
        ⟨mean_absolute_error
            ((pyTailSlice (resampleMonthly (rowsForEntity rows k)) 12).map fun p => p.2)
            (pyLastSlice (forecast_prophet plib
              (pyHeadSlice (resampleMonthly (rowsForEntity rows k)) 12) 12).yhat
              (forecast_arima m 12).length),
          sqrtFn (mean_squared_error
            ((pyTailSlice (resampleMonthly (rowsForEntity rows k)) 12).map fun p => p.2)
            (pyLastSlice (forecast_prophet plib
              (pyHeadSlice (resampleMonthly (rowsForEntity rows k)) 12) 12).yhat
              (forecast_arima m 12).length)),
          calculate_mape
            ((pyTailSlice (resampleMonthly (rowsForEntity rows k)) 12).map fun p => p.2)
            (pyLastSlice (forecast_prophet plib
              (pyHeadSlice (resampleMonthly (rowsForEntity rows k)) 12) 12).yhat
              (forecast_arima m 12).length)⟩⟩] := by
    rw [hpre2]
    simp [compare_models, List.lookup, heA, heB]
  have hzip : ∀ fc2 : List ℚ, fc2.length = 12 →
      (((pyTailSlice (resampleMonthly (rowsForEntity rows k)) 12).map fun p => p.2).zip fc2) ≠ [] := by
    intro fc2 hfc2 hc
    have := congrArg List.length hc
    rw [List.length_zip, hal, hfc2] at this
    simp at this
  have hmemzip : ∀ (fc2 : List ℚ) (ap : ℚ × ℚ),
      ap ∈ (((pyTailSlice (resampleMonthly (rowsForEntity rows k)) 12).map fun p => p.2).zip fc2) →
      ∃ p ∈ pyTailSlice (resampleMonthly (rowsForEntity rows k)) 12, p.2 = ap.1 := by
    intro fc2 ap hap
    obtain ⟨a, b⟩ := ap
    have h1 : a ∈ (pyTailSlice (resampleMonthly (rowsForEntity rows k)) 12).map
        (fun p => p.2) := (List.of_mem_zip hap).1
    rcases List.mem_map.mp h1 with ⟨p, hp, hpe⟩
    exact ⟨p, hp, hpe⟩
  refine ⟨forecast_arima m 12,
    forecast_prophet plib (pyHeadSlice (resampleMonthly (rowsForEntity rows k)) 12) 12,
    _, _, hari, hfl, hpro, by rw [← List.length_pos] at *; rw [hyl]; norm_num,
    hyl, by rw [hyl]; norm_num, hcomp,
    mean_absolute_error_nonneg _ _, hsqrt _ (mean_squared_error_nonneg _ _),
    mean_absolute_error_nonneg _ _, hsqrt _ (mean_squared_error_nonneg _ _), ?_, ?_⟩
  · intro hz
    constructor
    · apply calculate_mape_all_nonzero _ _ (hzip _ hfl)
      intro ap hap
      rcases hmemzip _ ap hap with ⟨p, hp, hpe⟩
      rw [← hpe]
      exact hz p hp
    · apply calculate_mape_all_nonzero _ _ (hzip _ hpl)
      intro ap hap
      rcases hmemzip _ ap hap with ⟨p, hp, hpe⟩
      rw [← hpe]
      exact hz p hp
  · intro hnan
    by_contra hno
    push_neg at hno
    have hz : ∀ p ∈ pyTailSlice (resampleMonthly (rowsForEntity rows k)) 12, p.2 ≠ 0 := hno
    rcases hnan with hnan | hnan
    · rcases calculate_mape_all_nonzero _ _ (hzip _ hfl) (fun ap hap => by
        rcases hmemzip _ ap hap with ⟨p, hp, hpe⟩
        rw [← hpe]; exact hz p hp) with ⟨q, hq, -⟩
      rw [hq] at hnan
      exact Val.noConfusion hnan
    · rcases calculate_mape_all_nonzero _ _ (hzip _ hpl) (fun ap hap => by
        rcases hmemzip _ ap hap with ⟨p, hp, hpe⟩
        rw [← hpe]; exact hz p hp) with ⟨q, hq, -⟩
      rw [hq] at hnan
      exact Val.noConfusion hnan

set_option maxRecDepth 10000 in
/-- C3 counterexample: a single entity with 48 monthly points (sales 1 in
every month) and test horizon 12.  The Prophet forecaster's output for the
entity contains 48 projected values — the forecast covers the 36 training
months extended by 12 — not exactly 12 as the claim states. -/
theorem prophet_output_forty_eight :
    ((prophet_pipeline ⟨fun _ _ => (0, 0, 0)⟩
        (preprocess_data ((List.range 48).map fun i =>
          { date := i, entity := 1, sales := 1 }) 12).1 12).map
      fun kv => (kv.1, kv.2.yhat.length)) = [(1, 48)] ∧ ¬ ((48 : ℕ) = 12) := by
  constructor
  · decide
  · norm_num

set_option maxRecDepth 10000 in
/-- Closed witness for pipeline_end_to_end at a concrete 48-month
single-entity table (sales all 1), constant library valuations and the
identity as sqrt. -/
theorem pipeline_end_to_end_witness :
    (entityKeys ((List.range 48).map fun i => { date := i, entity := 1, sales := 1 }) = [1] ∧
     (resampleMonthly (rowsForEntity ((List.range 48).map fun i =>
        { date := i, entity := 1, sales := 1 }) 1)).length = 48) ∧
    (∃ fc pf am pm,
      arima_pipeline ⟨fun _ _ => .ok fun _ => 0⟩ (fun _ => 0)
        (preprocess_data ((List.range 48).map fun i =>
          { date := i, entity := 1, sales := 1 }) 12).1 12 = .ok [(1, fc)] ∧
      fc.length = 12 ∧
      prophet_pipeline ⟨fun _ _ => (0, 0, 0)⟩
        (preprocess_data ((List.range 48).map fun i =>
          { date := i, entity := 1, sales := 1 }) 12).1 12 = [(1, pf)] ∧
      ProphetForecast.yhat pf ≠ [] ∧
      (ProphetForecast.yhat pf).length = 48 ∧
      ¬ (ProphetForecast.yhat pf).length = 12 ∧
      compare_models (fun q => q) [(1, fc)] [(1, pf)]
        (preprocess_data ((List.range 48).map fun i =>
          { date := i, entity := 1, sales := 1 }) 12).2 = .ok [⟨1, am, pm⟩] ∧
      0 ≤ am.mae ∧ 0 ≤ am.rmse ∧ 0 ≤ pm.mae ∧ 0 ≤ pm.rmse ∧
      ((∀ p ∈ pyTailSlice (resampleMonthly (rowsForEntity ((List.range 48).map fun i =>
          { date := i, entity := 1, sales := 1 }) 1)) 12, p.2 ≠ 0) →
        (∃ q, am.mape = .num q ∧ 0 ≤ q) ∧ (∃ q, pm.mape = .num q ∧ 0 ≤ q)) ∧
      ((am.mape = .nan ∨ pm.mape = .nan) →
        ∃ p ∈ pyTailSlice (resampleMonthly (rowsForEntity ((List.range 48).map fun i =>
          { date := i, entity := 1, sales := 1 }) 1)) 12, p.2 = 0)) := by
  have h1 : entityKeys ((List.range 48).map fun i =>
      ({ date := i, entity := 1, sales := 1 } : SalesRow)) = [1] := by decide
  have h2 : (resampleMonthly (rowsForEntity ((List.range 48).map fun i =>
      ({ date := i, entity := 1, sales := 1 } : SalesRow)) 1)).length = 48 := by decide
  exact ⟨⟨h1, h2⟩, pipeline_end_to_end _ 1 ⟨fun _ _ => .ok fun _ => 0⟩
    ⟨fun _ _ => (0, 0, 0)⟩ (fun _ => 0) (fun q => q) h1 h2
    (fun s o => ⟨fun _ => 0, rfl⟩) (fun q h => h)⟩
